import Mathlib

/-!
Verification of the donation ledger in `src/server.js` (an Express app with three
routes: `GET /` (summary), `POST /donate` (create a pending pledge) and
`POST /paystack/webhook` (signature-checked confirmation + broadcast)).

The embedding is shallow: the Prisma `donation` table is a `List DonationRecord`,
the socket.io broadcast is the list of events a handler emits, and each route
handler is a pure function from its inputs (parsed request body, headers, the
current store, and the nondeterministic draws `Date.now()` / `Math.random()`)
to its outputs (HTTP result, new store, emitted events).

JavaScript numbers are modelled as exact rationals plus an explicit NaN
(`JNum`); the JS coercions the handlers use (truthiness, `<` against a numeric
literal, `parseFloat`, string/number concatenation) are modelled explicitly,
restricted where noted to the value shapes the routes actually receive.
-/

/-- A JavaScript number as stored and summed: either NaN or a finite value,
modelled as an exact rational. -/
inductive JNum where
  | nan : JNum
  | fin (q : ℚ) : JNum
deriving DecidableEq

/-- A JSON scalar arriving in a request body field: a number, NaN (not valid
JSON but reachable as a coercion result), a string, or an absent field
(`undefined`). Restricted to the shapes the `/donate` validation inspects. -/
inductive JSValue where
  | num (q : ℚ) : JSValue
  | nan : JSValue
  | str (s : String) : JSValue
  | undef : JSValue
deriving DecidableEq

/-- JS truthiness: `0`, `NaN`, `""` and `undefined` are falsy. -/
def jsTruthy : JSValue → Bool
  | .num q => decide (q ≠ 0)
  | .nan => false
  | .str s => s != ""
  | .undef => false

/-- Numeric value of a decimal digit character. -/
def charDigit (c : Char) : ℕ := c.toNat - 48

/-- Decimal value of a list of digit characters. -/
def natOfDigits (cs : List Char) : ℕ := cs.foldl (fun acc c => 10 * acc + charDigit c) 0

/-- Models the JS `ToNumber` coercion on strings, restricted to the forms this
code path can meet: `""` converts to 0, a nonempty all-digit string to its
decimal value, and any other string (e.g. `"abc"`) to NaN. -/
def strToNumber (s : String) : JNum :=
  if s.data = [] then .fin 0
  else if s.data.all (fun c => c.isDigit) then .fin ((natOfDigits s.data : ℕ) : ℚ)
  else .nan

/-- Models JS `parseFloat` on a string, restricted to the forms met here: the
longest leading digit run is parsed; if there is none (e.g. `"abc"`) the
result is NaN. -/
def strParseFloat (s : String) : JNum :=
  let ds := s.data.takeWhile (fun c => c.isDigit)
  if ds = [] then .nan else .fin ((natOfDigits ds : ℕ) : ℚ)

/-- The JS comparison `v < bound` for a numeric literal `bound`: the left
operand goes through `ToNumber`; any comparison involving NaN is false. -/
def jsLtNum (v : JSValue) (bound : ℚ) : Bool :=
  match v with
  | .num q => decide (q < bound)
  | .nan => false
  | .str s =>
    match strToNumber s with
    | .fin q => decide (q < bound)
    | .nan => false
  | .undef => false

/-- JS `parseFloat(v)`: numbers pass through (via their decimal printing),
strings are parsed, `undefined` and NaN give NaN. -/
def jsParseFloat : JSValue → JNum
  | .num q => .fin q
  | .nan => .nan
  | .str s => strParseFloat s
  | .undef => .nan

/-- A JSON value, restricted to the constructors the webhook payload uses
(`event.event`, `event.data.reference` are strings inside nested objects). -/
inductive Json where
  | str (s : String) : Json
  | obj (fields : List (String × Json)) : Json

/-- JSON string escaping for the two characters that must be escaped in the
payloads modelled here. -/
def jsonEscapeChar (c : Char) : List Char :=
  if c = '"' then ['\\', '"'] else if c = '\\' then ['\\', '\\'] else [c]

/-- Body of a JSON string literal. -/
def jsonEscape (s : String) : String :=
  String.mk (s.data.foldr (fun c acc => jsonEscapeChar c ++ acc) [])

mutual

/-- Models `JSON.stringify`: compact canonical serialization, keys in
insertion order, no whitespace. -/
def jsonStringify : Json → String
  | .str s => "\"" ++ jsonEscape s ++ "\""
  | .obj fs => "\x7b" ++ jsonStringifyFields fs ++ "\x7d"

/-- Serialization of an object's field list, comma-separated. -/
def jsonStringifyFields : List (String × Json) → String
  | [] => ""
  | (k, v) :: rest =>
    "\"" ++ jsonEscape k ++ "\":" ++ jsonStringify v ++
      (if rest.isEmpty then "" else ",") ++ jsonStringifyFields rest

end

/-- First binding of a key in an object's field list (JS property access on a
parsed JSON object). -/
def lookupField : List (String × Json) → String → Option Json
  | [], _ => none
  | (k', v) :: rest, k => if k' = k then some v else lookupField rest k

/-- JS property access `j[k]`: `undefined` (`none`) unless `j` is an object
with the field. -/
def jsonGet : Json → String → Option Json
  | .obj fs, k => lookupField fs k
  | _, _ => none

/-- Modelled from the spec: the HTTP layer's JSON body parser
(`express.json()`, i.e. `JSON.parse`), which is an external collaborator not
present in `src/`. Restricted to the two facts used here, both true of
`JSON.parse`: it accepts the canonical serialization of a value, and it
ignores whitespace before and after the payload. -/
inductive JsonParses : String → Json → Prop where
  | canonical (b : Json) : JsonParses (jsonStringify b) b
  | trailWs (s : String) (b : Json) : JsonParses s b → JsonParses (s ++ " ") b
  | leadWs (s : String) (b : Json) : JsonParses s b → JsonParses (" " ++ s) b

/-- Decimal digit list of a natural number, most significant first. Models the
implicit JS number-to-string coercion (on the nonnegative integers produced by
`Date.now()` and `Math.floor(Math.random() * 10000)`). -/
def natDecCore (n : ℕ) : List Char :=
  if _h : n < 10 then [Nat.digitChar n]
  else natDecCore (n / 10) ++ [Nat.digitChar (n % 10)]
termination_by n
decreasing_by exact Nat.div_lt_self (by omega) (by omega)

/-- Decimal string of a natural number. -/
def natDec (n : ℕ) : String := String.mk (natDecCore n)

/-- From `src/server.js` line 85:
`const reference = 'RAMADAN-' + Date.now() + '-' + Math.floor(Math.random() * 10000);`.
`now` is the millisecond timestamp draw and `rand` the floored random draw. -/
def genReference (now rand : ℕ) : String :=
  "RAMADAN-" ++ natDec now ++ "-" ++ natDec rand

/-- A row of the Prisma `donation` table. `status` is a plain string in the
source (only ever written as `'pending'` or `'success'`). -/
structure DonationRecord where
  reference : String
  amount : JNum
  email : String
  donorName : String
  comment : Option String
  status : String
  createdAt : ℕ
deriving DecidableEq

/-- JS addition on stored amounts: NaN is absorbing. -/
def jadd : JNum → JNum → JNum
  | .fin a, .fin b => .fin (a + b)
  | _, _ => .nan

/-- Sum of a list of amounts (the SQL `SUM` the Prisma aggregate issues). -/
def jsumList (l : List JNum) : JNum := l.foldr jadd (.fin 0)

/-- Models `prisma.donation.update({ where: { reference }, data: { status: 'success' } })`:
the unique matching row gets `status` set to `'success'` and the updated row is
returned; with no matching row Prisma throws (`none` here, caught by the
handler's `try/catch`). The store is a list, so "unique match" is the first
match; theorems that need uniqueness state it. -/
def updateByReference : List DonationRecord → String → Option (List DonationRecord × DonationRecord)
  | [], _ => none
  | r :: rest, ref =>
    if r.reference = ref then
      some ({ r with status := "success" } :: rest, { r with status := "success" })
    else
      match updateByReference rest ref with
      | none => none
      | some (rest', u) => some (r :: rest', u)

/-- The rows a `where: { status: 'success' }` query returns. -/
def successRecords (store : List DonationRecord) : List DonationRecord :=
  store.filter (fun r => r.status == "success")

/-- Models `prisma.donation.aggregate({ _sum: { amount: true }, where: { status: 'success' } })`:
SQL `SUM` is `NULL` (here `none`) when no row matches, otherwise the sum of the
matching amounts. -/
def aggregateSum (store : List DonationRecord) : Option JNum :=
  let amounts := (successRecords store).map (fun r => r.amount)
  if amounts.isEmpty then none else some (jsumList amounts)

/-- The JS expression `x || 0` applied to the nullable aggregate: `null`, NaN
and `0` are falsy and give `0`. -/
def jnumOrZero : Option JNum → JNum
  | some (.fin q) => if q = 0 then .fin 0 else .fin q
  | _ => .fin 0

/-- `total._sum.amount || 0` as rendered by the home page. -/
def raisedValue (store : List DonationRecord) : JNum := jnumOrZero (aggregateSum store)

/-- Models `findMany({ where: { status: 'success' }, orderBy: { createdAt: 'desc' }, take: 50 })`. -/
def recentDonations (store : List DonationRecord) : List DonationRecord :=
  (List.mergeSort (successRecords store) (fun a b => decide (b.createdAt ≤ a.createdAt))).take 50

/-- The read-only summary the home page route computes: total raised and the
recent confirmed donations. -/
def getSummary (store : List DonationRecord) : JNum × List DonationRecord :=
  (raisedValue store, recentDonations store)

/-- Finite part of an amount (0 for NaN); used to state exact-sum theorems. -/
def finPart : JNum → ℚ
  | .fin q => q
  | .nan => 0

/-- The exact rational sum of the amounts of the `success` records. -/
def exactSum (store : List DonationRecord) : ℚ :=
  ((successRecords store).map (fun r => finPart r.amount)).sum

/-- Outcome of `POST /donate`: `badRequest` is the 400 JSON error response,
`ok` the 200 `{ reference }` response, and `dbError` the 500
`{ error: "Database error" }` response produced by the catch when
`prisma.donation.create` throws. -/
inductive DonateResult where
  | badRequest (msg : String) : DonateResult
  | ok (reference : String) : DonateResult
  | dbError : DonateResult
deriving DecidableEq

/-- The JS expression `v || dflt` on a string-or-absent field. -/
def strOr (v : Option String) (dflt : String) : String :=
  match v with
  | some s => if s = "" then dflt else s
  | none => dflt

/-- The JS expression `comment || null`. -/
def optComment (v : Option String) : Option String :=
  match v with
  | some s => if s = "" then none else some s
  | none => none

/-- Truthiness of a string-or-absent field. -/
def optTruthy : Option String → Bool
  | some s => s != ""
  | none => false

/-- The `POST /donate` handler (src/server.js lines 76-105). Inputs: the
current store, the request body fields, and the two nondeterministic draws
used by the reference generator. The persistence step models
`prisma.donation.create` together with the unique constraint on `reference`
(the code's line-125 comment: "unique constraint prevents it"): creating a row
whose reference is already stored throws, the catch answers with the 500
database-error response, and no row is persisted; otherwise exactly one row is
appended. -/
def donateHandler (store : List DonationRecord) (email : Option String) (amount : JSValue)
    (name comment : Option String) (now rand : ℕ) : DonateResult × List DonationRecord :=
  if !jsTruthy amount || jsLtNum amount 100 then (.badRequest "Minimum donation is ₦100", store)
  else if !optTruthy email then (.badRequest "Email is required", store)
  else
    let reference := genReference now rand
    let newRecord : DonationRecord :=
      { reference := reference
        amount := jsParseFloat amount
        email := email.getD ""
        donorName := strOr name "Anonymous"
        comment := optComment comment
        status := "pending"
        createdAt := now }
    if store.any (fun r => r.reference == reference) then (.dbError, store)
    else (.ok reference, store ++ [newRecord])

/-- A `socket.io` `new_donation` event as emitted on line 139-144. -/
structure BroadcastEvent where
  donorName : String
  amount : JNum
  comment : Option String
  totalRaised : Option JNum
deriving DecidableEq

/-- The exact bytes the webhook handler feeds to the keyed hash
(src/server.js lines 113-115): `JSON.stringify(req.body)`, the
re-serialization of the middleware-parsed body — not the raw request bytes. -/
def webhookMacInput (body : Json) : String := jsonStringify body

/-- Steps 3-5 of the webhook (src/server.js lines 127-144): update the matching
row to `'success'`, recompute the aggregate over the updated store, and emit the
`new_donation` broadcast. A missing row makes `prisma.donation.update` throw
(P2025); the handler's `try/catch` swallows it, so nothing changes and nothing
is emitted. -/
def webhookConfirm (store : List DonationRecord) (ref : String) :
    List DonationRecord × List BroadcastEvent :=
  match updateByReference store ref with
  | none => (store, [])
  | some (store', u) =>
    (store', [{ donorName := u.donorName, amount := u.amount, comment := u.comment,
                totalRaised := aggregateSum store' }])

/-- Step 2 of the webhook (src/server.js lines 118-126): only a
`charge.success` event is processed; `event.data.reference` is read (a missing
`data` object makes the property access throw a TypeError and a non-string
reference makes Prisma throw — both are caught, changing nothing). -/
def webhookProcessEvent (store : List DonationRecord) (body : Json) :
    List DonationRecord × List BroadcastEvent :=
  match jsonGet body "event" with
  | some (.str ev) =>
    if ev = "charge.success" then
      match jsonGet body "data" with
      | none => (store, [])
      | some d =>
        match jsonGet d "reference" with
        | some (.str ref) => webhookConfirm store ref
        | _ => (store, [])
    else (store, [])
  | _ => (store, [])

/-- The `POST /paystack/webhook` handler (src/server.js lines 108-155).
`hmac` is the keyed hash `crypto.createHmac('sha512', secret). ... .digest('hex')`
with the secret baked in (the HMAC primitive is an external collaborator, so
the handler is parameterized by it); `body` is the middleware-parsed JSON body
and `sig` the `x-paystack-signature` header. Returns the new store, the list
of broadcast events emitted, and the HTTP status (always 200: every failure
inside the `try` is caught and still acknowledged). -/
def webhookHandler (hmac : String → String) (store : List DonationRecord) (body : Json)
    (sig : Option String) : List DonationRecord × List BroadcastEvent × ℕ :=
  if some (hmac (webhookMacInput body)) = sig then
    ((webhookProcessEvent store body).1, (webhookProcessEvent store body).2, 200)
  else (store, [], 200)

/-- Store states reachable from the empty table through the two mutating
routes. -/
inductive Reachable : List DonationRecord → Prop where
  | init : Reachable []
  | donate (s : List DonationRecord) (email : Option String) (amount : JSValue)
      (name comment : Option String) (now rand : ℕ) :
      Reachable s → Reachable (donateHandler s email amount name comment now rand).2
  | webhook (hmac : String → String) (s : List DonationRecord) (body : Json) (sig : Option String) :
      Reachable s → Reachable (webhookHandler hmac s body sig).1

/-- One operation's effect on one pre-existing record: unchanged, or the
pending-to-success transition. -/
def StatusStep (r r' : DonationRecord) : Prop :=
  r' = r ∨ (r.status = "pending" ∧ r' = { r with status := "success" })

/-! ## Helper lemmas about the store operations -/

theorem record_set_success_self {r : DonationRecord} (h : r.status = "success") :
    { r with status := "success" } = r := by
  cases r
  simp_all

theorem updateByReference_eq_none {store : List DonationRecord} {ref : String}
    (h : ∀ r ∈ store, r.reference ≠ ref) : updateByReference store ref = none := by
  induction store with
  | nil => rfl
  | cons r rest ih =>
    simp only [updateByReference, if_neg (h r (List.mem_cons_self r rest)),
      ih (fun x hx => h x (List.mem_cons_of_mem r hx))]

theorem updateByReference_idem {store s₁ : List DonationRecord} {ref : String}
    {u : DonationRecord} (h : updateByReference store ref = some (s₁, u)) :
    updateByReference s₁ ref = some (s₁, u) := by
  induction store generalizing s₁ u with
  | nil => simp [updateByReference] at h
  | cons r rest ih =>
    by_cases hr : r.reference = ref
    · simp only [updateByReference, if_pos hr, Option.some.injEq, Prod.mk.injEq] at h
      obtain ⟨h1, h2⟩ := h
      subst h1
      subst h2
      simp [updateByReference, hr]
    · simp only [updateByReference, if_neg hr] at h
      cases hu : updateByReference rest ref with
      | none => rw [hu] at h; simp at h
      | some p =>
        obtain ⟨rest', u'⟩ := p
        rw [hu] at h
        simp only [Option.some.injEq, Prod.mk.injEq] at h
        obtain ⟨h1, h2⟩ := h
        subst h1
        subst h2
        simp [updateByReference, if_neg hr, ih hu]

theorem updateByReference_mem {store s' : List DonationRecord} {ref : String}
    {u : DonationRecord} (h : updateByReference store ref = some (s', u)) :
    ∀ r' ∈ s', r' ∈ store ∨ ∃ r ∈ store, r' = { r with status := "success" } := by
  induction store generalizing s' u with
  | nil => simp [updateByReference] at h
  | cons r rest ih =>
    by_cases hr : r.reference = ref
    · simp only [updateByReference, if_pos hr, Option.some.injEq, Prod.mk.injEq] at h
      obtain ⟨h1, _⟩ := h
      subst h1
      intro r' hr'
      rcases List.mem_cons.mp hr' with h' | h'
      · exact Or.inr ⟨r, List.mem_cons_self r rest, h'⟩
      · exact Or.inl (List.mem_cons_of_mem r h')
    · simp only [updateByReference, if_neg hr] at h
      cases hu : updateByReference rest ref with
      | none => rw [hu] at h; simp at h
      | some p =>
        obtain ⟨rest', u'⟩ := p
        rw [hu] at h
        simp only [Option.some.injEq, Prod.mk.injEq] at h
        obtain ⟨h1, _⟩ := h
        subst h1
        intro r' hr'
        rcases List.mem_cons.mp hr' with h' | h'
        · exact Or.inl (h' ▸ List.mem_cons_self r rest)
        · rcases ih hu r' h' with h'' | ⟨x, hx, hx'⟩
          · exact Or.inl (List.mem_cons_of_mem r h'')
          · exact Or.inr ⟨x, List.mem_cons_of_mem r hx, hx'⟩

theorem forall₂_statusStep_refl (l : List DonationRecord) : List.Forall₂ StatusStep l l := by
  induction l with
  | nil => exact List.Forall₂.nil
  | cons a l ih => exact List.Forall₂.cons (Or.inl rfl) ih

theorem updateByReference_statusStep {store s' : List DonationRecord} {ref : String}
    {u : DonationRecord}
    (hst : ∀ r ∈ store, r.status = "pending" ∨ r.status = "success")
    (h : updateByReference store ref = some (s', u)) :
    List.Forall₂ StatusStep store s' := by
  induction store generalizing s' u with
  | nil => simp [updateByReference] at h
  | cons r rest ih =>
    by_cases hr : r.reference = ref
    · simp only [updateByReference, if_pos hr, Option.some.injEq, Prod.mk.injEq] at h
      obtain ⟨h1, _⟩ := h
      subst h1
      refine List.Forall₂.cons ?_ (forall₂_statusStep_refl rest)
      rcases hst r (List.mem_cons_self r rest) with hp | hs
      · exact Or.inr ⟨hp, rfl⟩
      · exact Or.inl (record_set_success_self hs)
    · simp only [updateByReference, if_neg hr] at h
      cases hu : updateByReference rest ref with
      | none => rw [hu] at h; simp at h
      | some p =>
        obtain ⟨rest', u'⟩ := p
        rw [hu] at h
        simp only [Option.some.injEq, Prod.mk.injEq] at h
        obtain ⟨h1, _⟩ := h
        subst h1
        exact List.Forall₂.cons (Or.inl rfl)
          (ih (fun x hx => hst x (List.mem_cons_of_mem r hx)) hu)

theorem webhookConfirm_cases (store : List DonationRecord) (ref : String) :
    webhookConfirm store ref = (store, []) ∨
    ∃ s' u, updateByReference store ref = some (s', u) ∧
      webhookConfirm store ref =
        (s', [⟨u.donorName, u.amount, u.comment, aggregateSum s'⟩]) := by
  unfold webhookConfirm
  cases hu : updateByReference store ref with
  | none => exact Or.inl rfl
  | some p =>
    obtain ⟨s', u⟩ := p
    exact Or.inr ⟨s', u, hu ▸ rfl, rfl⟩

theorem webhookProcessEvent_cases (store : List DonationRecord) (body : Json) :
    webhookProcessEvent store body = (store, []) ∨
    ∃ ref, webhookProcessEvent store body = webhookConfirm store ref := by
  unfold webhookProcessEvent
  repeat' split
  all_goals first
    | exact Or.inl rfl
    | exact Or.inr ⟨_, rfl⟩

theorem webhookHandler_cases (hmac : String → String) (store : List DonationRecord)
    (body : Json) (sig : Option String) :
    webhookHandler hmac store body sig = (store, [], 200) ∨
    ∃ ref s' u, updateByReference store ref = some (s', u) ∧
      webhookHandler hmac store body sig =
        (s', [⟨u.donorName, u.amount, u.comment, aggregateSum s'⟩], 200) := by
  unfold webhookHandler
  by_cases h1 : some (hmac (webhookMacInput body)) = sig
  · rw [if_pos h1]
    rcases webhookProcessEvent_cases store body with hp | ⟨ref, hp⟩
    · rw [hp]
      exact Or.inl rfl
    · rcases webhookConfirm_cases store ref with hc | ⟨s', u, hu, hc⟩
      · rw [hp, hc]
        exact Or.inl rfl
      · rw [hp, hc]
        exact Or.inr ⟨ref, s', u, hu, rfl⟩
  · rw [if_neg h1]
    exact Or.inl rfl

/-! ## Webhook claims -/

/-- C3: for every store and every notification whose provided signature differs from
the signature the handler recomputes over the body, the webhook changes no record's
status and publishes no broadcast event: the store after the call equals the store
before, the event list is empty, and the endpoint still acknowledges with 200. -/
theorem webhook_invalid_signature_noop (hmac : String → String) (store : List DonationRecord)
    (body : Json) (sig : Option String)
    (h : sig ≠ some (hmac (webhookMacInput body))) :
    webhookHandler hmac store body sig = (store, [], 200) := by
  unfold webhookHandler
  rw [if_neg (fun hc => h hc.symm)]

/-- C3 witness: a request with no signature header at all is rejected without
touching the (empty) store. -/
theorem webhook_invalid_signature_noop_witness :
    webhookHandler (fun s => s) [] (Json.obj []) none = ([], [], 200) :=
  webhook_invalid_signature_noop (fun s => s) [] (Json.obj []) none (by simp)

/-- C4: a validly signed `charge.success` notification whose reference matches no
stored record is a benign no-op: `prisma.donation.update` throws P2025, the catch
swallows it, no record is created or modified, no event is published, and the
endpoint still responds 200. -/
theorem webhook_unknown_reference_noop (hmac : String → String) (store : List DonationRecord)
    (body d : Json) (sig : Option String) (ref : String)
    (hsig : sig = some (hmac (webhookMacInput body)))
    (hev : jsonGet body "event" = some (.str "charge.success"))
    (hd : jsonGet body "data" = some d)
    (href : jsonGet d "reference" = some (.str ref))
    (habs : ∀ r ∈ store, r.reference ≠ ref) :
    webhookHandler hmac store body sig = (store, [], 200) := by
  simp only [webhookHandler, webhookProcessEvent, webhookConfirm, hev, hd, href, hsig,
    updateByReference_eq_none habs, if_pos rfl, if_true]

/-- C4 witness: a correctly signed success notification for an unknown reference
leaves a one-record store untouched and emits nothing. -/
theorem webhook_unknown_reference_noop_witness :
    webhookHandler (fun s => s)
      [⟨"RAMADAN-9-9", .fin 50, "c@z.com", "Chidi", none, "pending", 9⟩]
      (Json.obj [("event", Json.str "charge.success"),
        ("data", Json.obj [("reference", Json.str "UNKNOWN-REF")])])
      (some (webhookMacInput (Json.obj [("event", Json.str "charge.success"),
        ("data", Json.obj [("reference", Json.str "UNKNOWN-REF")])])))
    = ([⟨"RAMADAN-9-9", .fin 50, "c@z.com", "Chidi", none, "pending", 9⟩], [], 200) :=
  webhook_unknown_reference_noop (fun s => s) _ _ _ _ "UNKNOWN-REF" rfl rfl rfl rfl
    (by decide)

/-- C1 (amended): delivering a valid `charge.success` notification updates the
matching record and publishes one broadcast event; redelivering the very same
notification leaves the store unchanged (the record's status transitions to
`success` only once) but publishes one more identical broadcast event — the second
delivery is not silent, so two deliveries publish two events, not one. -/
theorem webhook_replay_amended (hmac : String → String) (store s₁ : List DonationRecord)
    (body d : Json) (sig : Option String) (ref : String) (u : DonationRecord)
    (hsig : sig = some (hmac (webhookMacInput body)))
    (hev : jsonGet body "event" = some (.str "charge.success"))
    (hd : jsonGet body "data" = some d)
    (href : jsonGet d "reference" = some (.str ref))
    (hupd : updateByReference store ref = some (s₁, u)) :
    webhookHandler hmac store body sig =
      (s₁, [⟨u.donorName, u.amount, u.comment, aggregateSum s₁⟩], 200) ∧
    webhookHandler hmac s₁ body sig =
      (s₁, [⟨u.donorName, u.amount, u.comment, aggregateSum s₁⟩], 200) := by
  constructor
  · simp only [webhookHandler, webhookProcessEvent, webhookConfirm, hev, hd, href, hsig,
      hupd, if_pos rfl, if_true]
  · simp only [webhookHandler, webhookProcessEvent, webhookConfirm, hev, hd, href, hsig,
      updateByReference_idem hupd, if_pos rfl, if_true]

/-- C1 witness: a concrete pending record confirmed twice — the first delivery
transitions it and emits one event, and the replay leaves the store as it is
while emitting the same event again. -/
theorem webhook_replay_amended_witness :
    webhookHandler (fun s => s)
      [⟨"REF-1", .fin 500, "a@x.com", "Amina", none, "pending", 1⟩]
      (Json.obj [("event", Json.str "charge.success"),
        ("data", Json.obj [("reference", Json.str "REF-1")])])
      (some (webhookMacInput (Json.obj [("event", Json.str "charge.success"),
        ("data", Json.obj [("reference", Json.str "REF-1")])]))) =
      ([⟨"REF-1", .fin 500, "a@x.com", "Amina", none, "success", 1⟩],
        [⟨"Amina", .fin 500, none,
          aggregateSum [⟨"REF-1", .fin 500, "a@x.com", "Amina", none, "success", 1⟩]⟩], 200)
    ∧ webhookHandler (fun s => s)
      [⟨"REF-1", .fin 500, "a@x.com", "Amina", none, "success", 1⟩]
      (Json.obj [("event", Json.str "charge.success"),
        ("data", Json.obj [("reference", Json.str "REF-1")])])
      (some (webhookMacInput (Json.obj [("event", Json.str "charge.success"),
        ("data", Json.obj [("reference", Json.str "REF-1")])]))) =
      ([⟨"REF-1", .fin 500, "a@x.com", "Amina", none, "success", 1⟩],
        [⟨"Amina", .fin 500, none,
          aggregateSum [⟨"REF-1", .fin 500, "a@x.com", "Amina", none, "success", 1⟩]⟩], 200) :=
  webhook_replay_amended (fun s => s)
    [⟨"REF-1", .fin 500, "a@x.com", "Amina", none, "pending", 1⟩]
    [⟨"REF-1", .fin 500, "a@x.com", "Amina", none, "success", 1⟩]
    (Json.obj [("event", Json.str "charge.success"),
      ("data", Json.obj [("reference", Json.str "REF-1")])])
    (Json.obj [("reference", Json.str "REF-1")])
    (some (webhookMacInput (Json.obj [("event", Json.str "charge.success"),
      ("data", Json.obj [("reference", Json.str "REF-1")])])))
    "REF-1"
    ⟨"REF-1", .fin 500, "a@x.com", "Amina", none, "success", 1⟩
    rfl rfl rfl rfl rfl

/-- C1 counterexample: the second delivery of the same valid notification is not a
no-op — it publishes a broadcast event again (one event per delivery, so two
events across the two deliveries, where the claim demands exactly one). -/
theorem webhook_replay_publishes_twice :
    (webhookHandler (fun s => s)
        [⟨"REF-1", .fin 500, "a@x.com", "Amina", none, "pending", 1⟩]
        (Json.obj [("event", Json.str "charge.success"),
          ("data", Json.obj [("reference", Json.str "REF-1")])])
        (some (webhookMacInput (Json.obj [("event", Json.str "charge.success"),
          ("data", Json.obj [("reference", Json.str "REF-1")])])))).2.1.length = 1
    ∧ (webhookHandler (fun s => s)
        (webhookHandler (fun s => s)
          [⟨"REF-1", .fin 500, "a@x.com", "Amina", none, "pending", 1⟩]
          (Json.obj [("event", Json.str "charge.success"),
            ("data", Json.obj [("reference", Json.str "REF-1")])])
          (some (webhookMacInput (Json.obj [("event", Json.str "charge.success"),
            ("data", Json.obj [("reference", Json.str "REF-1")])])))).1
        (Json.obj [("event", Json.str "charge.success"),
          ("data", Json.obj [("reference", Json.str "REF-1")])])
        (some (webhookMacInput (Json.obj [("event", Json.str "charge.success"),
          ("data", Json.obj [("reference", Json.str "REF-1")])])))).2.1.length = 1 :=
  ⟨rfl, rfl⟩

/-- C2 (code bug): the bytes fed to the keyed hash are `JSON.stringify(req.body)`,
the re-serialization of the parsed body, not the raw request bytes: a raw body that
differs from the canonical serialization only by a trailing space parses to the
same `req.body`, yet the hashed bytes differ from the raw bytes received. -/
theorem webhook_hashes_reserialized_body :
    JsonParses
      (jsonStringify (Json.obj [("event", Json.str "charge.success"),
        ("data", Json.obj [("reference", Json.str "REF-1")])]) ++ " ")
      (Json.obj [("event", Json.str "charge.success"),
        ("data", Json.obj [("reference", Json.str "REF-1")])])
    ∧ webhookMacInput (Json.obj [("event", Json.str "charge.success"),
        ("data", Json.obj [("reference", Json.str "REF-1")])]) ≠
      jsonStringify (Json.obj [("event", Json.str "charge.success"),
        ("data", Json.obj [("reference", Json.str "REF-1")])]) ++ " " := by
  refine ⟨JsonParses.trailWs _ _ (JsonParses.canonical _), ?_⟩
  intro hcon
  have hlen := congrArg String.length hcon
  rw [String.length_append] at hlen
  simp only [webhookMacInput] at hlen
  have h1 : (" " : String).length = 1 := rfl
  rw [h1] at hlen
  omega

/-! ## Donate claims -/

/-- C6: a donation whose amount is a number below the 100 minimum, or whose email
is absent, is rejected with a 400 validation error and no record is created: the
store is returned unchanged. -/
theorem donate_invalid_rejected (store : List DonationRecord) (email : Option String)
    (amount : JSValue) (name comment : Option String) (now rand : ℕ)
    (h : (∃ q, amount = .num q ∧ q < 100) ∨ email = none) :
    (∃ msg, (donateHandler store email amount name comment now rand).1 = .badRequest msg) ∧
    (donateHandler store email amount name comment now rand).2 = store := by
  unfold donateHandler
  by_cases h1 : (!jsTruthy amount || jsLtNum amount 100) = true
  · rw [if_pos h1]
    exact ⟨⟨_, rfl⟩, rfl⟩
  · rw [if_neg h1]
    have hemail : email = none := by
      rcases h with ⟨q, rfl, hq⟩ | he
      · exfalso
        apply h1
        rcases eq_or_ne q 0 with rfl | h0
        · simp [jsTruthy]
        · simp [jsTruthy, jsLtNum, h0, hq]
      · exact he
    subst hemail
    rw [if_pos (by simp [optTruthy])]
    exact ⟨⟨_, rfl⟩, rfl⟩

/-- C6 witness: an amount of 50 (below the minimum) is rejected and the empty
store stays empty. -/
theorem donate_invalid_rejected_witness :
    (∃ msg, (donateHandler [] (some "a@x.com") (.num 50) none none 1 1).1 = .badRequest msg) ∧
    (donateHandler [] (some "a@x.com") (.num 50) none none 1 1).2 = [] :=
  donate_invalid_rejected [] (some "a@x.com") (.num 50) none none 1 1
    (Or.inl ⟨50, rfl, by norm_num⟩)

/-- C7: for a non-empty email and a numeric amount at or above the minimum, the
handler persists exactly one new record — status `pending`, the given amount
(`parseFloat` preserves it) and email, `donorName` defaulting to `"Anonymous"`
when absent — and returns the freshly generated reference (freshness of the
generated reference — the success path of the unique constraint — is the stated
environmental hypothesis). -/
theorem donate_valid_creates_pending (store : List DonationRecord) (e : String) (q : ℚ)
    (name comment : Option String) (now rand : ℕ) (he : e ≠ "") (hq : 100 ≤ q)
    (hfresh : ∀ r ∈ store, r.reference ≠ genReference now rand) :
    ∃ nr, donateHandler store (some e) (.num q) name comment now rand =
        (.ok (genReference now rand), store ++ [nr]) ∧
      nr.status = "pending" ∧ nr.amount = .fin q ∧ nr.email = e ∧
      nr.reference = genReference now rand ∧ nr.createdAt = now ∧
      (name = none → nr.donorName = "Anonymous") ∧
      (∀ n, name = some n → n ≠ "" → nr.donorName = n) := by
  refine ⟨⟨genReference now rand, .fin q, e, strOr name "Anonymous", optComment comment,
    "pending", now⟩, ?_, rfl, rfl, rfl, rfl, rfl, ?_, ?_⟩
  · have h0 : q ≠ 0 := by
      intro h0
      rw [h0] at hq
      norm_num at hq
    have hany : store.any (fun r => r.reference == genReference now rand) = false := by
      rw [List.any_eq_false]
      intro r hr
      simpa using hfresh r hr
    unfold donateHandler
    rw [if_neg (by simp [jsTruthy, jsLtNum, h0, not_lt.mpr hq])]
    rw [if_neg (by simp [optTruthy, he])]
    dsimp only
    rw [if_neg (by simp [hany])]
    rfl
  · intro hn
    subst hn
    rfl
  · intro n hn hne
    subst hn
    simp [strOr, hne]

/-- C7 witness: donating 500 with a name and no comment appends one pending
record and returns the generated reference. -/
theorem donate_valid_creates_pending_witness :
    ∃ nr, donateHandler [] (some "a@x.com") (.num 500) none none 3 4 =
        (.ok (genReference 3 4), [] ++ [nr]) ∧
      nr.status = "pending" ∧ nr.amount = .fin 500 ∧ nr.email = "a@x.com" ∧
      nr.reference = genReference 3 4 ∧ nr.createdAt = 3 ∧
      ((none : Option String) = none → nr.donorName = "Anonymous") ∧
      (∀ n, (none : Option String) = some n → n ≠ "" → nr.donorName = n) :=
  donate_valid_creates_pending [] "a@x.com" 500 none none 3 4 (by decide) (by norm_num)
    (by simp)

/-- C10: the `/donate` validation rejects with 400 exactly when the amount is
falsy, the amount compares below 100 under JS coercion, or the email is falsy;
consequently a truthy non-numeric string amount such as `"abc"` passes
validation and the handler persists `parseFloat("abc")`, which is NaN. -/
theorem donate_validation_boundary :
    (∀ (store : List DonationRecord) (email : Option String) (amount : JSValue)
        (name comment : Option String) (now rand : ℕ),
      (∃ msg, (donateHandler store email amount name comment now rand).1 = .badRequest msg) ↔
        (jsTruthy amount = false ∨ jsLtNum amount 100 = true ∨ optTruthy email = false))
    ∧ donateHandler [] (some "a@x.com") (.str "abc") none none 5 7 =
        (.ok (genReference 5 7),
          [⟨genReference 5 7, .nan, "a@x.com", "Anonymous", none, "pending", 5⟩]) := by
  constructor
  · intro store email amount name comment now rand
    unfold donateHandler
    by_cases h1 : (!jsTruthy amount || jsLtNum amount 100) = true
    · rw [if_pos h1]
      simp only [Bool.or_eq_true, Bool.not_eq_true'] at h1
      simp only [true_iff, DonateResult.badRequest.injEq, exists_eq']
      rcases h1 with h1 | h1
      · exact Or.inl h1
      · exact Or.inr (Or.inl h1)
    · rw [if_neg h1]
      simp only [Bool.or_eq_true, Bool.not_eq_true'] at h1
      push_neg at h1
      obtain ⟨ht, hlt⟩ := h1
      by_cases h2 : (!optTruthy email) = true
      · rw [if_pos h2]
        simp only [Bool.not_eq_true'] at h2
        simp [ht, hlt, h2]
      · rw [if_neg h2]
        simp only [Bool.not_eq_true'] at h2
        cases hany : store.any (fun r => r.reference == genReference now rand) with
        | true =>
          simp only [hany]
          simp [ht, hlt, h2]
        | false =>
          simp only [hany]
          simp [ht, hlt, h2]
  · rfl

/-! ## Aggregate claims -/

theorem jsumList_all_fin {l : List JNum} (h : ∀ x ∈ l, x ≠ JNum.nan) :
    jsumList l = .fin ((l.map finPart).sum) := by
  induction l with
  | nil => rfl
  | cons x l ih =>
    cases x with
    | nan => exact absurd rfl (h _ (List.mem_cons_self _ _))
    | fin q =>
      have hrec := ih (fun y hy => h y (List.mem_cons_of_mem _ hy))
      simp only [jsumList, List.foldr_cons] at hrec ⊢
      rw [hrec]
      simp [jadd, finPart]

theorem successRecords_amount_ne_nan {store : List DonationRecord}
    (h : ∀ r ∈ store, r.status = "success" → r.amount ≠ .nan) :
    ∀ x ∈ (successRecords store).map (fun r => r.amount), x ≠ JNum.nan := by
  intro x hx
  obtain ⟨r, hr, rfl⟩ := List.mem_map.mp hx
  have hm := List.mem_filter.mp hr
  exact h r hm.1 (by simpa using hm.2)

theorem aggregateSum_eq {store : List DonationRecord}
    (h : ∀ r ∈ store, r.status = "success" → r.amount ≠ .nan) :
    aggregateSum store = none ∨ aggregateSum store = some (.fin (exactSum store)) := by
  unfold aggregateSum
  by_cases hE : ((successRecords store).map (fun r => r.amount)).isEmpty = true
  · left
    simp [hE]
  · right
    simp only [hE, Bool.false_eq_true, if_false, Option.some.injEq]
    rw [jsumList_all_fin (successRecords_amount_ne_nan h)]
    unfold exactSum
    rw [List.map_map]
    rfl

theorem aggregateSum_none_exactSum {store : List DonationRecord}
    (h : aggregateSum store = none) : exactSum store = 0 := by
  unfold aggregateSum at h
  by_cases hE : ((successRecords store).map (fun r => r.amount)).isEmpty = true
  · have : successRecords store = [] := by
      have := List.isEmpty_iff.mp hE
      exact List.map_eq_nil_iff.mp this
    unfold exactSum
    rw [this]
    rfl
  · simp [hE] at h

/-- C8: on a store whose confirmed records carry finite amounts, the aggregate the
summary route renders is exactly the rational sum of the `success` amounts (pending
records excluded, no precision loss), and every broadcast event the webhook emits
carries the aggregate freshly recomputed over the updated store. -/
theorem aggregate_exact_sum (store : List DonationRecord)
    (h : ∀ r ∈ store, r.status = "success" → r.amount ≠ .nan) :
    (getSummary store).1 = .fin (exactSum store)
    ∧ ∀ (hmac : String → String) (body : Json) (sig : Option String),
        ∀ e ∈ (webhookHandler hmac store body sig).2.1,
          e.totalRaised = aggregateSum (webhookHandler hmac store body sig).1 := by
  constructor
  · unfold getSummary raisedValue
    rcases aggregateSum_eq h with h0 | h0
    · rw [h0, aggregateSum_none_exactSum h0]
      rfl
    · rw [h0]
      unfold jnumOrZero
      by_cases hz : exactSum store = 0
      · rw [hz]
        simp
      · simp [hz]
  · intro hmac body sig e he
    rcases webhookHandler_cases hmac store body sig with hc | ⟨ref, s', u, hu, hc⟩
    · rw [hc] at he
      simp at he
    · rw [hc] at he ⊢
      have : e = ⟨u.donorName, u.amount, u.comment, aggregateSum s'⟩ := by
        simpa using he
      rw [this]

/-- C8 witness: on a store with one 500 success record and one 200 pending record,
the rendered aggregate is the exact success-only sum. -/
theorem aggregate_exact_sum_witness :
    (getSummary [⟨"R1", .fin 500, "a@x.com", "Amina", none, "success", 1⟩,
      ⟨"R2", .fin 200, "b@y.com", "Bola", none, "pending", 2⟩]).1 =
    .fin (exactSum [⟨"R1", .fin 500, "a@x.com", "Amina", none, "success", 1⟩,
      ⟨"R2", .fin 200, "b@y.com", "Bola", none, "pending", 2⟩]) :=
  (aggregate_exact_sum
    [⟨"R1", .fin 500, "a@x.com", "Amina", none, "success", 1⟩,
      ⟨"R2", .fin 200, "b@y.com", "Bola", none, "pending", 2⟩]
    (by decide)).1

/-! ## Status state-machine claims -/

theorem donateHandler_store_cases (store : List DonationRecord) (email : Option String)
    (amount : JSValue) (name comment : Option String) (now rand : ℕ) :
    (donateHandler store email amount name comment now rand).2 = store ∨
    ∃ nr, (donateHandler store email amount name comment now rand).2 = store ++ [nr] ∧
      nr.status = "pending" ∧ ∀ r ∈ store, r.reference ≠ nr.reference := by
  unfold donateHandler
  by_cases h1 : (!jsTruthy amount || jsLtNum amount 100) = true
  · rw [if_pos h1]
    exact Or.inl rfl
  · rw [if_neg h1]
    by_cases h2 : (!optTruthy email) = true
    · rw [if_pos h2]
      exact Or.inl rfl
    · rw [if_neg h2]
      dsimp only
      by_cases h3 : (store.any (fun r => r.reference == genReference now rand)) = true
      · rw [if_pos h3]
        exact Or.inl rfl
      · rw [if_neg h3]
        refine Or.inr ⟨_, rfl, rfl, ?_⟩
        intro r hr heq
        apply h3
        rw [List.any_eq_true]
        exact ⟨r, hr, by simp [heq]⟩

theorem reachable_status {s : List DonationRecord} (hs : Reachable s) :
    ∀ r ∈ s, r.status = "pending" ∨ r.status = "success" := by
  induction hs with
  | init => intro r hr; simp at hr
  | donate s email amount name comment now rand _ ih =>
    rcases donateHandler_store_cases s email amount name comment now rand with hc | ⟨nr, hc, hp, -⟩
    · rw [hc]
      exact ih
    · rw [hc]
      intro r hr
      rcases List.mem_append.mp hr with h' | h'
      · exact ih r h'
      · left
        rw [List.mem_singleton.mp h']
        exact hp
  | webhook hmac s body sig _ ih =>
    rcases webhookHandler_cases hmac s body sig with hc | ⟨ref, s', u, hu, hc⟩
    · rw [hc]
      exact ih
    · rw [hc]
      intro r hr
      rcases updateByReference_mem hu r hr with h' | ⟨x, _, hx⟩
      · exact ih r h'
      · right
        rw [hx]

/-- C9: the per-record status state machine. On every reachable store each record's
status is `pending` or `success`; the create route never touches existing records
(it at most appends one new `pending` record); and the webhook route maps the store
pointwise (no deletion, no insertion), each record either unchanged or moved from
`pending` to `success` — no operation leaves `success` or deletes a record. The
summary route is read-only by construction (`getSummary` returns values and no
store). -/
theorem record_status_state_machine :
    (∀ s, Reachable s → ∀ r ∈ s, r.status = "pending" ∨ r.status = "success")
    ∧ (∀ (s : List DonationRecord) (email : Option String) (amount : JSValue)
          (name comment : Option String) (now rand : ℕ),
        (donateHandler s email amount name comment now rand).2 = s ∨
        ∃ nr, (donateHandler s email amount name comment now rand).2 = s ++ [nr] ∧
          nr.status = "pending")
    ∧ (∀ (hmac : String → String) (s : List DonationRecord) (body : Json)
          (sig : Option String), Reachable s →
        List.Forall₂ StatusStep s (webhookHandler hmac s body sig).1) := by
  refine ⟨fun s hs => reachable_status hs, ?_, ?_⟩
  · intro s email amount name comment now rand
    rcases donateHandler_store_cases s email amount name comment now rand with hc | ⟨nr, hc, hp, -⟩
    · exact Or.inl hc
    · exact Or.inr ⟨nr, hc, hp⟩
  intro hmac s body sig hs
  rcases webhookHandler_cases hmac s body sig with hc | ⟨ref, s', u, hu, hc⟩
  · rw [hc]
    exact forall₂_statusStep_refl s
  · rw [hc]
    exact updateByReference_statusStep (reachable_status hs) hu

/-- C9 witness: the record created by a concrete donation on the empty store has a
legal status. -/
theorem record_status_state_machine_witness :
    (⟨genReference 3 4, .fin 500, "a@x.com", "Anonymous", none, "pending", 3⟩
        : DonationRecord).status = "pending" ∨
    (⟨genReference 3 4, .fin 500, "a@x.com", "Anonymous", none, "pending", 3⟩
        : DonationRecord).status = "success" :=
  record_status_state_machine.1
    (donateHandler [] (some "a@x.com") (.num 500) none none 3 4).2
    (Reachable.donate [] (some "a@x.com") (.num 500) none none 3 4 Reachable.init)
    ⟨genReference 3 4, .fin 500, "a@x.com", "Anonymous", none, "pending", 3⟩
    (List.mem_singleton.mpr rfl)

/-! ## Reference generator claims -/

theorem natDecCore_ne_nil (n : ℕ) : natDecCore n ≠ [] := by
  unfold natDecCore
  by_cases h : n < 10
  · simp [h]
  · simp [h]

theorem natDecCore_digit : ∀ n : ℕ, ∀ c ∈ natDecCore n, ∃ d, d < 10 ∧ c = Nat.digitChar d := by
  intro n
  induction n using Nat.strong_induction_on with
  | _ n ih =>
    unfold natDecCore
    by_cases h : n < 10
    · simp only [h, dif_pos]
      intro c hc
      rw [List.mem_singleton.mp hc]
      exact ⟨n, h, rfl⟩
    · simp only [h, dif_neg, not_false_iff]
      intro c hc
      rcases List.mem_append.mp hc with h' | h'
      · exact ih (n / 10) (Nat.div_lt_self (by omega) (by omega)) c h'
      · rw [List.mem_singleton.mp h']
        exact ⟨n % 10, Nat.mod_lt _ (by omega), rfl⟩

theorem digitChar_lt_ten_inj :
    ∀ d, d < 10 → ∀ e, e < 10 → Nat.digitChar d = Nat.digitChar e → d = e := by decide

theorem natDecCore_no_dash (n : ℕ) : '-' ∉ natDecCore n := by
  intro hmem
  obtain ⟨d, hd, hc⟩ := natDecCore_digit n '-' hmem
  have hne : ∀ d, d < 10 → Nat.digitChar d ≠ '-' := by decide
  exact hne d hd hc.symm

theorem natDecCore_inj : ∀ m n : ℕ, natDecCore m = natDecCore n → m = n := by
  intro m
  induction m using Nat.strong_induction_on with
  | _ m ih =>
    intro n h
    unfold natDecCore at h
    by_cases hm : m < 10 <;> by_cases hn : n < 10
    · simp only [hm, hn, dif_pos, List.cons.injEq, and_true] at h
      exact digitChar_lt_ten_inj m hm n hn h
    · simp only [hm, hn, dif_pos, dif_neg, not_false_iff] at h
      exfalso
      cases hcore : natDecCore (n / 10) with
      | nil => exact natDecCore_ne_nil (n / 10) hcore
      | cons x xs =>
        rw [hcore] at h
        have hl := congrArg List.length h
        simp only [List.length_cons, List.length_append, List.length_singleton] at hl
        omega
    · simp only [hm, hn, dif_pos, dif_neg, not_false_iff] at h
      exfalso
      cases hcore : natDecCore (m / 10) with
      | nil => exact natDecCore_ne_nil (m / 10) hcore
      | cons x xs =>
        rw [hcore] at h
        have hl := congrArg List.length h
        simp only [List.length_cons, List.length_append, List.length_singleton] at hl
        omega
    · simp only [hm, hn, dif_neg, not_false_iff] at h
      have hinj := List.append_inj' h (by simp)
      obtain ⟨hfront, hlast⟩ := hinj
      have h10 : m % 10 = n % 10 :=
        digitChar_lt_ten_inj _ (Nat.mod_lt _ (by omega)) _ (Nat.mod_lt _ (by omega))
          (by simpa using hlast)
      have hdiv : m / 10 = n / 10 :=
        ih (m / 10) (Nat.div_lt_self (by omega) (by omega)) (n / 10) hfront
      omega

theorem split_dash : ∀ (A C B D : List Char), '-' ∉ A → '-' ∉ C →
    A ++ '-' :: B = C ++ '-' :: D → A = C ∧ B = D := by
  intro A
  induction A with
  | nil =>
    intro C B D _ hC h
    cases C with
    | nil =>
      simp at h
      exact ⟨rfl, h⟩
    | cons c C' =>
      simp at h
      obtain ⟨hc, -⟩ := h
      subst hc
      exact absurd (List.mem_cons_self _ _) hC
  | cons a A' ih =>
    intro C B D hA hC h
    cases C with
    | nil =>
      simp at h
      obtain ⟨ha, -⟩ := h
      subst ha
      exact absurd (List.mem_cons_self _ _) hA
    | cons c C' =>
      simp at h
      obtain ⟨hac, h'⟩ := h
      subst hac
      have hr := ih C' B D (fun hm => hA (List.mem_cons_of_mem _ hm))
        (fun hm => hC (List.mem_cons_of_mem _ hm)) h'
      exact ⟨by rw [hr.1], hr.2⟩

/-- Two generated references are equal exactly when both the millisecond
timestamp and the floored random draw coincide. -/
theorem genReference_collision_iff (t1 r1 t2 r2 : ℕ) :
    genReference t1 r1 = genReference t2 r2 ↔ (t1 = t2 ∧ r1 = r2) := by
  constructor
  · intro h
    have hdash : ("-" : String).data = ['-'] := rfl
    have hd : ("RAMADAN-".data ++ (natDecCore t1 ++ ('-' :: natDecCore r1))) =
        ("RAMADAN-".data ++ (natDecCore t2 ++ ('-' :: natDecCore r2))) := by
      have hdata := congrArg String.data h
      simpa [genReference, natDec, String.data_append, hdash, List.append_assoc] using hdata
    have hc := List.append_cancel_left hd
    have hsplit := split_dash (natDecCore t1) (natDecCore t2) (natDecCore r1) (natDecCore r2)
      (natDecCore_no_dash t1) (natDecCore_no_dash t2) hc
    exact ⟨natDecCore_inj _ _ hsplit.1, natDecCore_inj _ _ hsplit.2⟩
  · rintro ⟨rfl, rfl⟩
    rfl

theorem updateByReference_references {store s' : List DonationRecord} {ref : String}
    {u : DonationRecord} (h : updateByReference store ref = some (s', u)) :
    s'.map (fun r => r.reference) = store.map (fun r => r.reference) := by
  induction store generalizing s' u with
  | nil => simp [updateByReference] at h
  | cons r rest ih =>
    by_cases hr : r.reference = ref
    · simp only [updateByReference, if_pos hr, Option.some.injEq, Prod.mk.injEq] at h
      obtain ⟨h1, _⟩ := h
      subst h1
      simp
    · simp only [updateByReference, if_neg hr] at h
      cases hu : updateByReference rest ref with
      | none => rw [hu] at h; simp at h
      | some p =>
        obtain ⟨rest', u'⟩ := p
        rw [hu] at h
        simp only [Option.some.injEq, Prod.mk.injEq] at h
        obtain ⟨h1, _⟩ := h
        subst h1
        simp [ih hu]

theorem reachable_references_nodup {s : List DonationRecord} (hs : Reachable s) :
    (s.map (fun r => r.reference)).Nodup := by
  induction hs with
  | init => simp
  | donate s email amount name comment now rand _ ih =>
    rcases donateHandler_store_cases s email amount name comment now rand with
      hc | ⟨nr, hc, -, hfresh⟩
    · rw [hc]
      exact ih
    · rw [hc, List.map_append]
      refine List.Nodup.append ih (by simp) ?_
      intro x hx hx2
      obtain ⟨r, hr, hxr⟩ := List.mem_map.mp hx
      have hx3 : x = nr.reference := by simpa using hx2
      exact hfresh r hr (hxr.trans hx3)
  | webhook hmac s body sig _ ih =>
    rcases webhookHandler_cases hmac s body sig with hc | ⟨ref, s', u, hu, hc⟩
    · rw [hc]
      exact ih
    · have hc1 : (webhookHandler hmac s body sig).1 = s' := by rw [hc]
      rw [hc1, updateByReference_references hu]
      exact ih

/-- C5 (amended): the generator guarantees distinct references exactly when the
draws differ — two generated references are equal iff both the millisecond
timestamp and the floored random draw coincide, so two calls in the same
millisecond whose random draws collide generate the very same reference — while
the references actually stored remain pairwise distinct on every reachable
store, because a create that draws an already-stored reference violates the
unique constraint and persists nothing. -/
theorem reference_collision_amended :
    (∀ t1 r1 t2 r2 : ℕ, genReference t1 r1 = genReference t2 r2 ↔ (t1 = t2 ∧ r1 = r2))
    ∧ (∀ s, Reachable s → (s.map (fun r => r.reference)).Nodup) :=
  ⟨genReference_collision_iff, fun _ hs => reachable_references_nodup hs⟩

/-- C5 witness: the store reached by one concrete donation has pairwise distinct
stored references. -/
theorem reference_collision_amended_witness :
    ((donateHandler [] (some "a@x.com") (.num 500) none none 3 4).2.map
      (fun r => r.reference)).Nodup :=
  reference_collision_amended.2
    (donateHandler [] (some "a@x.com") (.num 500) none none 3 4).2
    (Reachable.donate [] (some "a@x.com") (.num 500) none none 3 4 Reachable.init)

/-- C5 counterexample: two pledge calls that draw the same millisecond timestamp
and the same random value generate the same reference. The first call is issued
that reference and a row is stored; the second call generates the very same
reference again, so its create hits the unique constraint: the caller receives
the 500 database error and no row is stored — the generated references of the
two calls are not distinct, refuting the claim. -/
theorem donate_reference_collision :
    (donateHandler [] (some "a@x.com") (.num 500) none none 1000 7).1 =
      .ok (genReference 1000 7)
    ∧ (donateHandler (donateHandler [] (some "a@x.com") (.num 500) none none 1000 7).2
        (some "b@y.com") (.num 200) none none 1000 7).1 = .dbError
    ∧ (donateHandler (donateHandler [] (some "a@x.com") (.num 500) none none 1000 7).2
        (some "b@y.com") (.num 200) none none 1000 7).2 =
      (donateHandler [] (some "a@x.com") (.num 500) none none 1000 7).2 := by
  have hany : List.any
      [({ reference := genReference 1000 7, amount := .fin 500, email := "a@x.com",
          donorName := "Anonymous", comment := none, status := "pending",
          createdAt := 1000 } : DonationRecord)]
      (fun r => r.reference == genReference 1000 7) = true := by
    simp
  have h2 : donateHandler
      [({ reference := genReference 1000 7, amount := .fin 500, email := "a@x.com",
          donorName := "Anonymous", comment := none, status := "pending",
          createdAt := 1000 } : DonationRecord)]
      (some "b@y.com") (.num 200) none none 1000 7 =
      (.dbError,
        [({ reference := genReference 1000 7, amount := .fin 500, email := "a@x.com",
            donorName := "Anonymous", comment := none, status := "pending",
            createdAt := 1000 } : DonationRecord)]) := by
    unfold donateHandler
    rw [if_neg (by decide), if_neg (by decide)]
    dsimp only
    rw [if_pos hany]
  refine ⟨rfl, ?_, ?_⟩
  · show (donateHandler
        [({ reference := genReference 1000 7, amount := .fin 500, email := "a@x.com",
            donorName := "Anonymous", comment := none, status := "pending",
            createdAt := 1000 } : DonationRecord)]
        (some "b@y.com") (.num 200) none none 1000 7).1 = .dbError
    rw [h2]
  · show (donateHandler
        [({ reference := genReference 1000 7, amount := .fin 500, email := "a@x.com",
            donorName := "Anonymous", comment := none, status := "pending",
            createdAt := 1000 } : DonationRecord)]
        (some "b@y.com") (.num 200) none none 1000 7).2 =
      [({ reference := genReference 1000 7, amount := .fin 500, email := "a@x.com",
          donorName := "Anonymous", comment := none, status := "pending",
          createdAt := 1000 } : DonationRecord)]
    rw [h2]
